import Mathlib

/-!
Shallow embedding of the core logic of the ember-whatsapp-api repository:
the campaign dispatcher (src/services/messageService.js), the metrics
engine (src/services/analyticsService.js) and the dashboard/report
manager (the dashboard service source file).

Asynchronous provider calls and document-store operations are modelled by
explicit outcome parameters (an `Except` value per call): a JavaScript
promise that settles is a value of `Except e a`, a caught exception is a
`match` on that value, and `Promise.all` over a list of per-element
promises is a pure `map` over the list of their settled outcomes (the
result array of `Promise.all` is ordered by input index, not by
completion time, which the pure map reflects).  Document collections are
association lists; `new ObjectId()` / `new Date()` are abstracted as
explicit parameters.
-/

/-- mapIdxFrom f i [x0, x1, ...] = [f i x0, f (i+1) x1, ...]; embeds
JavaScript's Array.prototype.map((x, idx) => ...) with a starting index. -/
def mapIdxFrom (f : Nat → α → β) : Nat → List α → List β
  | _, [] => []
  | i, x :: xs => f i x :: mapIdxFrom f (i + 1) xs

theorem length_mapIdxFrom (f : Nat → α → β) (i : Nat) (xs : List α) :
    (mapIdxFrom f i xs).length = xs.length := by
  induction xs generalizing i with
  | nil => rfl
  | cons x xs ih => simp [mapIdxFrom, ih]

theorem map_mapIdxFrom (g : β → γ) (f : Nat → α → β) (i : Nat) (xs : List α) :
    (mapIdxFrom f i xs).map g = mapIdxFrom (fun j x => g (f j x)) i xs := by
  induction xs generalizing i with
  | nil => rfl
  | cons x xs ih => simp [mapIdxFrom, ih]

theorem mapIdxFrom_congr (f g : Nat → α → β) (i : Nat) (xs : List α)
    (h : ∀ j x, i ≤ j → j < i + xs.length → f j x = g j x) :
    mapIdxFrom f i xs = mapIdxFrom g i xs := by
  induction xs generalizing i with
  | nil => rfl
  | cons x xs ih =>
    simp only [mapIdxFrom]
    rw [h i x (Nat.le_refl i) (by simp), ih (i + 1) (fun j x hj hj2 => h j x (by omega) (by simp at hj2 ⊢; omega))]

namespace MessageService

/-- MessageResult entry as built by sendTemplateMessages: the success
branch fills messageId/status "sent"/success true, the catch branch
fills status "failed"/success false and the provider error payload. -/
structure MessageResult where
  phoneNumber : String
  messageId : Option String := none
  status : String
  success : Bool
  error : Option String := none
deriving Repr, DecidableEq

/-- Campaign record (campaignData) assembled by sendTemplateMessages. -/
structure Campaign where
  id : Nat
  campaignName : String
  templateName : String
  language : String
  fromPhoneNumber : String
  sender : Option String
  dateTime : Nat
  total : Nat
  success : Nat
  failed : Nat
  variablesList : List (List (String × String))
  results : List MessageResult
deriving Repr, DecidableEq

/-- The campaigns database: one collection per projectId string, created
lazily on first write (saveCampaign's listCollections/createCollection). -/
abbrev CampaignStore := List (String × List Campaign)

/-- insertOne into the project's collection, creating it first when absent. -/
def storeInsert (store : CampaignStore) (projectId : String) (c : Campaign) : CampaignStore :=
  if store.any (fun kv => kv.1 == projectId) then
    store.map (fun kv => if kv.1 == projectId then (kv.1, kv.2 ++ [c]) else kv)
  else
    store ++ [(projectId, [c])]

/-- saveCampaign: attempts the store write; `writeOutcome` is the settled
outcome of the database interaction.  Any error is caught and only
logged (the catch block does not rethrow), so the function always
returns normally — on failure with the store unchanged. -/
def saveCampaign (campaignData : Campaign) (projectId : String)
    (writeOutcome : Except String Unit) (store : CampaignStore) : Except String CampaignStore :=
  match writeOutcome with
  | .ok _ => .ok (storeInsert store projectId campaignData)
  | .error _ => .ok store

/-- Outcome of one per-recipient provider call (the axios.post of one
mapped promise): ok carries response.data.messages?.[0]?.id, error
carries error.response?.data.error || error.message.  The per-recipient
try/catch converts either outcome into a MessageResult. -/
def sendOne (phoneNumber : String) (outcome : Except String (Option String)) : MessageResult :=
  match outcome with
  | .ok mid =>
      { phoneNumber := phoneNumber, messageId := mid, status := "sent", success := true }
  | .error e =>
      { phoneNumber := phoneNumber, status := "failed", success := false, error := some e }

/-- sendTemplateMessages: fans one request out to every phone number
(`provider idx` is the settled outcome of recipient idx's call), awaits
all of them (Promise.all keeps input order), tallies
success/failure, assembles campaignData, saves it (saveCampaign swallows
its own errors) and returns campaignData together with the store. -/
def sendTemplateMessages (provider : Nat → Except String (Option String))
    (campaignId : Nat) (campaignDateTime : Nat)
    (campaignName : Option String) (template_name : String) (languageCode : String)
    (fromPhoneNumber : String) (sender : Option String)
    (variablesList : List (List (String × String)))
    (phone_numbers : List String) (projectId : String)
    (writeOutcome : Except String Unit) (store : CampaignStore) :
    Except String (Campaign × CampaignStore) := do
  let results := mapIdxFrom (fun idx pn => sendOne pn (provider idx)) 0 phone_numbers
  let successCount := (results.filter (fun r => r.success)).length
  let failureCount := (results.filter (fun r => !r.success)).length
  let campaignData : Campaign :=
    { id := campaignId
      campaignName := campaignName.getD "N/A"
      templateName := template_name
      language := languageCode
      fromPhoneNumber := fromPhoneNumber
      sender := sender
      dateTime := campaignDateTime
      total := phone_numbers.length
      success := successCount
      failed := failureCount
      variablesList := variablesList
      results := results }
  let store' ← saveCampaign campaignData projectId writeOutcome store
  return (campaignData, store')

end MessageService

theorem filter_eq_nil_of_forall (l : List α) (p : α → Bool)
    (h : ∀ a ∈ l, p a = false) : l.filter p = [] := by
  induction l with
  | nil => rfl
  | cons x xs ih =>
    simp [List.filter, h x (List.mem_cons_self x xs),
      ih (fun a ha => h a (List.mem_cons_of_mem x ha))]

theorem mapIdxFrom_append (f : Nat → α → β) (i : Nat) (xs ys : List α) :
    mapIdxFrom f i (xs ++ ys) = mapIdxFrom f i xs ++ mapIdxFrom f (i + xs.length) ys := by
  induction xs generalizing i with
  | nil => simp [mapIdxFrom]
  | cons x xs ih => simp [mapIdxFrom, ih, Nat.add_assoc, Nat.add_comm 1 xs.length]

theorem mem_mapIdxFrom (f : Nat → α → β) (i : Nat) (xs : List α) (b : β)
    (hb : b ∈ mapIdxFrom f i xs) : ∃ j x, i ≤ j ∧ j < i + xs.length ∧ b = f j x := by
  induction xs generalizing i with
  | nil => simp [mapIdxFrom] at hb
  | cons x xs ih =>
    simp only [mapIdxFrom, List.mem_cons] at hb
    cases hb with
    | inl h => exact ⟨i, x, Nat.le_refl i, by simp, h⟩
    | inr h =>
      obtain ⟨j, y, hj1, hj2, hy⟩ := ih (i + 1) h
      exact ⟨j, y, by omega, by simp; omega, hy⟩

theorem mapIdxFrom_id (i : Nat) (xs : List α) : mapIdxFrom (fun _ x => x) i xs = xs := by
  induction xs generalizing i with
  | nil => rfl
  | cons x xs ih => simp [mapIdxFrom, ih]

theorem length_filter_add_length_filter_not (l : List α) (p : α → Bool) :
    (l.filter p).length + (l.filter (fun a => !(p a))).length = l.length := by
  induction l with
  | nil => rfl
  | cons x xs ih =>
    by_cases h : p x <;> simp [List.filter, h, ← ih] <;> omega

namespace MessageService

theorem sendOne_phoneNumber (pn : String) (o : Except String (Option String)) :
    (sendOne pn o).phoneNumber = pn := by
  cases o <;> rfl

/-- C1: for every recipient list of length N, the dispatcher returns a
Campaign with len(results) = N, total = N, success + failed = total,
success = count of successful results, and results in input order
(results[i].phoneNumber is the i-th input recipient; provider-call
completion order does not exist in the settled-outcome model, so the
result order depends only on the input order). -/
theorem claim_C1 (provider : Nat → Except String (Option String))
    (campaignId campaignDateTime : Nat) (campaignName : Option String)
    (template_name languageCode fromPhoneNumber : String) (sender : Option String)
    (variablesList : List (List (String × String))) (phone_numbers : List String)
    (projectId : String) (writeOutcome : Except String Unit) (store : CampaignStore) :
    ∃ c store', sendTemplateMessages provider campaignId campaignDateTime campaignName
        template_name languageCode fromPhoneNumber sender variablesList phone_numbers
        projectId writeOutcome store = Except.ok (c, store') ∧
      c.results.length = phone_numbers.length ∧
      c.total = phone_numbers.length ∧
      c.success + c.failed = c.total ∧
      c.success = (c.results.filter (fun r => r.success)).length ∧
      c.results.map (fun r => r.phoneNumber) = phone_numbers := by
  cases writeOutcome with
  | ok u =>
    refine ⟨_, _, rfl, ?_, rfl, ?_, rfl, ?_⟩
    · exact length_mapIdxFrom _ 0 phone_numbers
    · have h := length_filter_add_length_filter_not
        (mapIdxFrom (fun idx pn => sendOne pn (provider idx)) 0 phone_numbers)
        (fun r => r.success)
      rw [length_mapIdxFrom] at h
      exact h
    · rw [map_mapIdxFrom]
      simp only [sendOne_phoneNumber]
      exact mapIdxFrom_id 0 phone_numbers
  | error e =>
    refine ⟨_, _, rfl, ?_, rfl, ?_, rfl, ?_⟩
    · exact length_mapIdxFrom _ 0 phone_numbers
    · have h := length_filter_add_length_filter_not
        (mapIdxFrom (fun idx pn => sendOne pn (provider idx)) 0 phone_numbers)
        (fun r => r.success)
      rw [length_mapIdxFrom] at h
      exact h
    · rw [map_mapIdxFrom]
      simp only [sendOne_phoneNumber]
      exact mapIdxFrom_id 0 phone_numbers

theorem sendTemplateMessages_spec (provider : Nat → Except String (Option String))
    (campaignId campaignDateTime : Nat) (campaignName : Option String)
    (template_name languageCode fromPhoneNumber : String) (sender : Option String)
    (variablesList : List (List (String × String))) (phone_numbers : List String)
    (projectId : String) (writeOutcome : Except String Unit) (store : CampaignStore) :
    ∃ store', sendTemplateMessages provider campaignId campaignDateTime campaignName
        template_name languageCode fromPhoneNumber sender variablesList phone_numbers
        projectId writeOutcome store = Except.ok
      ({ id := campaignId
         campaignName := campaignName.getD "N/A"
         templateName := template_name
         language := languageCode
         fromPhoneNumber := fromPhoneNumber
         sender := sender
         dateTime := campaignDateTime
         total := phone_numbers.length
         success := ((mapIdxFrom (fun idx pn => sendOne pn (provider idx)) 0
             phone_numbers).filter (fun r => r.success)).length
         failed := ((mapIdxFrom (fun idx pn => sendOne pn (provider idx)) 0
             phone_numbers).filter (fun r => !r.success)).length
         variablesList := variablesList
         results := mapIdxFrom (fun idx pn => sendOne pn (provider idx)) 0 phone_numbers },
       store') := by
  cases writeOutcome with
  | ok u => exact ⟨_, rfl⟩
  | error e => exact ⟨_, rfl⟩

theorem length_filter_mapIdxFrom_single (p : β → Bool) (f : Nat → α → β) (i : Nat)
    (hp : ∀ j x, p (f j x) = (j == i)) (k : Nat) (xs : List α) :
    (List.filter p (mapIdxFrom f k xs)).length =
      if k ≤ i ∧ i < k + xs.length then 1 else 0 := by
  induction xs generalizing k with
  | nil =>
    rw [if_neg (by simp)]
    rfl
  | cons x xs ih =>
    rw [mapIdxFrom, List.filter_cons]
    by_cases hki : k = i
    · subst hki
      simp only [hp, beq_self_eq_true, if_true, List.length_cons, ih (k + 1)]
      split_ifs <;> omega
    · have hbeq : p (f k x) = false := by rw [hp]; exact beq_false_of_ne hki
      rw [hbeq, if_neg (by simp), ih (k + 1)]
      simp only [List.length_cons]
      split_ifs <;> omega

/-- C2: if exactly one recipient's provider call fails during a dispatch
of N recipients, the batch call still returns normally; the result list
has exactly one success=false entry, that entry is at the failed
recipient's input position with status "failed" and the provider error
payload, and every other entry is the success entry (messageId from the
provider response) it would have been anyway. -/
theorem claim_C2 (provider : Nat → Except String (Option String))
    (campaignId campaignDateTime : Nat) (campaignName : Option String)
    (template_name languageCode fromPhoneNumber : String) (sender : Option String)
    (variablesList : List (List (String × String))) (phone_numbers : List String)
    (projectId : String) (writeOutcome : Except String Unit) (store : CampaignStore)
    (i : Nat) (e : String) (mids : Nat → Option String)
    (hi : i < phone_numbers.length)
    (herr : provider i = Except.error e)
    (hok : ∀ j, j < phone_numbers.length → j ≠ i → provider j = Except.ok (mids j)) :
    ∃ c store', sendTemplateMessages provider campaignId campaignDateTime campaignName
        template_name languageCode fromPhoneNumber sender variablesList phone_numbers
        projectId writeOutcome store = Except.ok (c, store') ∧
      c.results = mapIdxFrom (fun j pn =>
        if j = i then
          { phoneNumber := pn, status := "failed", success := false, error := some e }
        else
          { phoneNumber := pn, messageId := mids j, status := "sent", success := true }) 0
        phone_numbers ∧
      (c.results.filter (fun r => !r.success)).length = 1 ∧
      (c.results.filter (fun r => r.success)).length = phone_numbers.length - 1 := by
  obtain ⟨store', hrun⟩ := sendTemplateMessages_spec provider campaignId campaignDateTime
    campaignName template_name languageCode fromPhoneNumber sender variablesList
    phone_numbers projectId writeOutcome store
  have hchar : mapIdxFrom (fun idx pn => sendOne pn (provider idx)) 0 phone_numbers =
      mapIdxFrom (fun j pn =>
        if j = i then
          ({ phoneNumber := pn, status := "failed", success := false,
             error := some e } : MessageResult)
        else
          { phoneNumber := pn, messageId := mids j, status := "sent", success := true }) 0
        phone_numbers := by
    apply mapIdxFrom_congr
    intro j pn hj0 hjlen
    simp only [Nat.zero_add] at hjlen
    by_cases hji : j = i
    · subst hji
      rw [herr]
      simp [sendOne]
    · rw [hok j hjlen hji]
      simp [sendOne, hji]
  have hfail : (List.filter (fun r => !r.success)
      (mapIdxFrom (fun idx pn => sendOne pn (provider idx)) 0 phone_numbers)).length = 1 := by
    rw [hchar]
    have hp : ∀ (j : Nat) (pn : String),
        (!((if j = i then
          ({ phoneNumber := pn, status := "failed", success := false,
             error := some e } : MessageResult)
        else
          { phoneNumber := pn, messageId := mids j, status := "sent",
            success := true }).success)) = (j == i) := by
      intro j pn
      by_cases hji : j = i <;> simp [hji]
    rw [length_filter_mapIdxFrom_single (fun r => !r.success)
      (fun j pn =>
        if j = i then
          ({ phoneNumber := pn, status := "failed", success := false,
             error := some e } : MessageResult)
        else
          { phoneNumber := pn, messageId := mids j, status := "sent", success := true })
      i hp 0 phone_numbers]
    rw [if_pos (by omega)]
  have hsucc : (List.filter (fun r => r.success)
      (mapIdxFrom (fun idx pn => sendOne pn (provider idx)) 0 phone_numbers)).length =
      phone_numbers.length - 1 := by
    have hcount := length_filter_add_length_filter_not
      (mapIdxFrom (fun idx pn => sendOne pn (provider idx)) 0 phone_numbers)
      (fun r => r.success)
    rw [length_mapIdxFrom] at hcount
    simp only at hcount hfail
    omega
  exact ⟨_, store', hrun, hchar, hfail, hsucc⟩

/-- Witness for C2 at a concrete two-recipient batch whose second
provider call rejects: the hypotheses hold and the conclusion follows
by applying the theorem. -/
theorem claim_C2_witness :
    (1 : Nat) < (["+1000", "+1001"] : List String).length ∧
    ((fun j => if j = 1 then Except.error "boom"
      else Except.ok (some "M1")) : Nat → Except String (Option String)) 1 =
        Except.error "boom" ∧
    (∀ j, j < (["+1000", "+1001"] : List String).length → j ≠ 1 →
      ((fun j => if j = 1 then Except.error "boom"
        else Except.ok (some "M1")) : Nat → Except String (Option String)) j =
          Except.ok ((fun _ => some "M1") j)) ∧
    (∃ c store', sendTemplateMessages
        (fun j => if j = 1 then Except.error "boom" else Except.ok (some "M1"))
        5 6 (some "camp") "welcome" "en" "+from" none [] ["+1000", "+1001"] "proj"
        (Except.ok ()) [] = Except.ok (c, store') ∧
      c.results = mapIdxFrom (fun j pn =>
        if j = 1 then
          { phoneNumber := pn, status := "failed", success := false,
            error := some "boom" }
        else
          { phoneNumber := pn, messageId := (fun _ => some "M1") j, status := "sent",
            success := true }) 0 ["+1000", "+1001"] ∧
      (c.results.filter (fun r => !r.success)).length = 1 ∧
      (c.results.filter (fun r => r.success)).length =
        (["+1000", "+1001"] : List String).length - 1) :=
  ⟨by decide, rfl,
    fun j hj hne => by
      rcases j with _ | (_ | n)
      · rfl
      · exact absurd rfl hne
      · simp at hj
        omega,
    claim_C2
      (fun j => if j = 1 then Except.error "boom" else Except.ok (some "M1"))
      5 6 (some "camp") "welcome" "en" "+from" none [] ["+1000", "+1001"] "proj"
      (Except.ok ()) [] 1 "boom" (fun _ => some "M1") (by decide) rfl
      (fun j hj hne => by
        rcases j with _ | (_ | n)
        · rfl
        · exact absurd rfl hne
        · simp at hj
          omega)⟩

/-- C3: if the campaign-store write fails after all provider calls have
settled, the error is swallowed (the dispatcher still returns normally)
and the Campaign handed back to the caller is identical to the one
returned when the write succeeds. -/
theorem claim_C3 (provider : Nat → Except String (Option String))
    (campaignId campaignDateTime : Nat) (campaignName : Option String)
    (template_name languageCode fromPhoneNumber : String) (sender : Option String)
    (variablesList : List (List (String × String))) (phone_numbers : List String)
    (projectId : String) (writeOutcome : Except String Unit) (store : CampaignStore) :
    ∃ c store₁ store₂, sendTemplateMessages provider campaignId campaignDateTime campaignName
        template_name languageCode fromPhoneNumber sender variablesList phone_numbers
        projectId writeOutcome store = Except.ok (c, store₁) ∧
      sendTemplateMessages provider campaignId campaignDateTime campaignName
        template_name languageCode fromPhoneNumber sender variablesList phone_numbers
        projectId (Except.ok ()) store = Except.ok (c, store₂) := by
  obtain ⟨store₁, h₁⟩ := sendTemplateMessages_spec provider campaignId campaignDateTime
    campaignName template_name languageCode fromPhoneNumber sender variablesList
    phone_numbers projectId writeOutcome store
  obtain ⟨store₂, h₂⟩ := sendTemplateMessages_spec provider campaignId campaignDateTime
    campaignName template_name languageCode fromPhoneNumber sender variablesList
    phone_numbers projectId (Except.ok ()) store
  exact ⟨_, store₁, store₂, h₁, h₂⟩

end MessageService

/-- String.prototype.toLowerCase, written over the character list so
that concrete inputs evaluate inside the kernel. -/
def jsToLower (s : String) : String :=
  String.mk (s.data.map Char.toLower)

/-- String.prototype.trim (leading and trailing whitespace removed),
written over the character list so that concrete inputs evaluate
inside the kernel. -/
def jsTrim (s : String) : String :=
  String.mk ((((s.data.dropWhile Char.isWhitespace).reverse).dropWhile
    Char.isWhitespace).reverse)

namespace AnalyticsService

/-- Inbound reply correlated to an outbound message (element of
MessageResult.answers); fields may be absent in the stored document. -/
structure Answer where
  messageId : Option String := none
  messageText : Option String := none
deriving Repr, DecidableEq

/-- MessageResult as read back from the campaign store by the analytics
functions: every field can be absent (the code guards each access). -/
structure MessageResult where
  phoneNumber : Option String := none
  status : Option String := none
  success : Option Bool := none
  readDateTime : Option String := none
  answers : List Answer := []
deriving Repr, DecidableEq

/-- Campaign document as read back from the campaign store (only the
fields the metrics engine touches). -/
structure Campaign where
  total : Nat := 0
  results : List MessageResult := []
deriving Repr, DecidableEq

/-- JavaScript truthiness of a possibly-absent string (null, undefined
and the empty string are falsy). -/
def truthyStr : Option String → Bool
  | none => false
  | some s => s != ""

/-- getMessagesSent over the campaigns matching the filter query:
sum of campaign.total. -/
def getMessagesSent (campaigns : List Campaign) : Nat :=
  campaigns.foldl (fun sum campaign => sum + campaign.total) 0

/-- getCampaignsTotal over the campaigns matching the filter query:
countDocuments, i.e. how many documents match. -/
def getCampaignsTotal (campaigns : List Campaign) : Nat :=
  campaigns.length

/-- The string a MessageResult adds to the uniqueRepliers set inside
getReplies, or none when the entry is skipped: skips falsy phoneNumber,
requires status (lowercased, trimmed) "answered" or a non-empty answers
array, and under a truthy textFilter additionally a case-insensitive
trimmed exact match of some answer's messageText. -/
def replierEntry (textFilter : Option String) (result : MessageResult) : Option String :=
  if !(truthyStr result.phoneNumber) then none
  else
    let hasAnswers := !result.answers.isEmpty
    let status := (jsTrim (jsToLower (result.status.getD "")))
    let isAnswered := status == "answered" || hasAnswers
    if isAnswered then
      if truthyStr textFilter then
        if hasAnswers then
          let filterText := jsTrim (jsToLower (textFilter.getD ""))
          if result.answers.any (fun answer =>
              (jsTrim (jsToLower (answer.messageText.getD ""))) == filterText) then
            some (jsTrim (result.phoneNumber.getD ""))
          else none
        else none
      else some (jsTrim (result.phoneNumber.getD ""))
    else none

/-- getReplies: the size of the uniqueRepliers set built by iterating
over every matching campaign's results (a JS Set's size is the number
of distinct strings added, i.e. the length of the deduplicated list). -/
def getReplies (campaigns : List Campaign) (textFilter : Option String) : Nat :=
  ((campaigns.flatMap (fun campaign => campaign.results)).filterMap
    (replierEntry textFilter)).dedup.length

/-- getViews: size of the set of trimmed phone numbers of results with
truthy phoneNumber and truthy readDateTime. -/
def getViews (campaigns : List Campaign) : Nat :=
  ((campaigns.flatMap (fun campaign => campaign.results)).filterMap
    (fun result =>
      if !(truthyStr result.phoneNumber) then none
      else if truthyStr result.readDateTime then
        some (jsTrim (result.phoneNumber.getD ""))
      else none)).dedup.length

/-- The contribution of one MessageResult to the replies count exactly
as the claim words it, with the status comparison read literally:
status == "answered" as exact string equality. -/
def claimedEntry (textFilter : Option String) (result : MessageResult) : Option String :=
  if truthyStr result.phoneNumber &&
      (result.status == some "answered" || !result.answers.isEmpty) &&
      (if truthyStr textFilter then
        result.answers.any (fun answer =>
          (jsTrim (jsToLower (answer.messageText.getD ""))) ==
            (jsTrim (jsToLower (textFilter.getD ""))))
      else true) then
    some (jsTrim (result.phoneNumber.getD ""))
  else none

/-- The replies metric as the claim words it (status compared exactly):
number of distinct trimmed phone numbers contributed over all matching
campaigns' results. -/
def repliesClaimed (campaigns : List Campaign) (textFilter : Option String) : Nat :=
  (((campaigns.flatMap (fun campaign => campaign.results)).filterMap
    (claimedEntry textFilter)).toFinset).card

/-- The contribution of one MessageResult to the replies count under the
amended claim: as claimedEntry, but the status is compared to "answered"
case-insensitively after trimming (which is what the code does). -/
def amendedEntry (textFilter : Option String) (result : MessageResult) : Option String :=
  if truthyStr result.phoneNumber &&
      (((jsTrim (jsToLower (result.status.getD ""))) == "answered") || !result.answers.isEmpty) &&
      (if truthyStr textFilter then
        result.answers.any (fun answer =>
          (jsTrim (jsToLower (answer.messageText.getD ""))) ==
            (jsTrim (jsToLower (textFilter.getD ""))))
      else true) then
    some (jsTrim (result.phoneNumber.getD ""))
  else none

/-- The replies metric under the amended claim. -/
def repliesAmended (campaigns : List Campaign) (textFilter : Option String) : Nat :=
  (((campaigns.flatMap (fun campaign => campaign.results)).filterMap
    (amendedEntry textFilter)).toFinset).card

theorem replierEntry_eq_amended (textFilter : Option String) (result : MessageResult) :
    replierEntry textFilter result = amendedEntry textFilter result := by
  unfold replierEntry amendedEntry
  cases hans : result.answers with
  | nil =>
    by_cases hph : truthyStr result.phoneNumber <;>
      by_cases htf : truthyStr textFilter <;>
        by_cases hst : (jsTrim (jsToLower (result.status.getD ""))) == "answered" <;>
          simp [hans, hph, htf, hst]
  | cons a as =>
    by_cases hph : truthyStr result.phoneNumber <;>
      by_cases htf : truthyStr textFilter <;>
        by_cases hst : (jsTrim (jsToLower (result.status.getD ""))) == "answered" <;>
          by_cases hm : (a :: as).any (fun answer =>
            (jsTrim (jsToLower (answer.messageText.getD ""))) ==
              (jsTrim (jsToLower (textFilter.getD "")))) <;>
            simp [hans, hph, htf, hst, hm]

/-- The failure test of the getErrors loop: success === false (strict,
so an absent success does not match) or status === "failed" (strict,
case-sensitive). -/
def isError (result : MessageResult) : Bool :=
  result.success == some false || result.status == some "failed"

/-- getErrors: the counting loop over every matching campaign's results,
incrementing on success === false or status === "failed"; individual
entries are counted, nothing is deduplicated. -/
def getErrors (campaigns : List Campaign) : Nat :=
  campaigns.foldl (fun totalErrors campaign =>
    campaign.results.foldl (fun acc result =>
      if isError result then acc + 1 else acc) totalErrors) 0

theorem foldl_count_eq (p : α → Bool) (l : List α) (n : Nat) :
    l.foldl (fun acc a => if p a then acc + 1 else acc) n = n + (l.filter p).length := by
  induction l generalizing n with
  | nil => simp
  | cons x xs ih =>
    rw [List.foldl_cons, List.filter_cons]
    by_cases h : p x
    · rw [if_pos h, if_pos h, ih]
      simp only [List.length_cons]
      omega
    · rw [if_neg h, if_neg h, ih]

theorem getErrors_foldl (campaigns : List Campaign) (n : Nat) :
    campaigns.foldl (fun totalErrors campaign =>
      campaign.results.foldl (fun acc result =>
        if isError result then acc + 1 else acc) totalErrors) n =
    n + ((campaigns.flatMap (fun campaign => campaign.results)).filter isError).length := by
  induction campaigns generalizing n with
  | nil => simp
  | cons c cs ih =>
    rw [List.foldl_cons, foldl_count_eq, ih]
    simp only [List.flatMap_cons, List.filter_append, List.length_append]
    omega

/-- C4 (amended): the replies metric equals the number of distinct
trimmed phone numbers (compared case-sensitively) over all matching
campaigns' results whose MessageResult has status equal to "answered"
compared case-insensitively after trimming (the original claim read the
comparison as exact) or a non-empty answers list; with a filter text,
a phone number counts only when at least one answer's messageText
equals the filter text case-insensitively after trimming; entries with
absent or empty phoneNumber never count; and a phone number with two
answers of which only one matches the filter contributes exactly 1. -/
theorem claim_C4 :
    (∀ (campaigns : List Campaign) (textFilter : Option String),
      getReplies campaigns textFilter = repliesAmended campaigns textFilter) ∧
    getReplies [⟨2, [⟨some "+2", some "answered", none, none,
        [⟨none, some "yes"⟩, ⟨none, some "no"⟩]⟩]⟩] (some "yes") = 1 := by
  constructor
  · intro campaigns textFilter
    unfold getReplies repliesAmended
    have hfun : replierEntry textFilter = amendedEntry textFilter :=
      funext (replierEntry_eq_amended textFilter)
    rw [hfun, List.card_toFinset]
  · decide

/-- C4 counterexample: a stored result whose status is "Answered"
(capital A) and whose answers list is empty is counted by getReplies
(the code lowercases and trims the status before comparing) but not by
the claimed metric, which compares status to "answered" exactly. -/
theorem claim_C4_counterexample :
    getReplies [⟨1, [⟨some "+1", some "Answered", none, none, []⟩]⟩] none = 1 ∧
    repliesClaimed [⟨1, [⟨some "+1", some "Answered", none, none, []⟩]⟩] none = 0 := by
  constructor <;> decide

/-- C8: the errors metric counts individual MessageResult entries with
success == false or status == "failed", with no deduplication by phone
number; two failed sends to the same phone number contribute 2. -/
theorem claim_C8 :
    (∀ campaigns : List Campaign, getErrors campaigns =
      ((campaigns.flatMap (fun campaign => campaign.results)).filter
        (fun result =>
          result.success == some false || result.status == some "failed")).length) ∧
    getErrors [⟨2, [⟨some "+5", some "failed", some false, none, []⟩,
        ⟨some "+5", some "failed", some false, none, []⟩]⟩] = 2 := by
  constructor
  · intro campaigns
    unfold getErrors
    rw [getErrors_foldl campaigns 0, Nat.zero_add]
    rfl
  · decide

/-- One requested metric: its type string and the filter's text field
(metric.filter?.text collapsed to an optional string). -/
structure MetricSpec where
  type : String
  filterText : Option String := none
deriving Repr, DecidableEq

/-- processMetric: computes one metric against the settled outcome of
its own store read (`fetched`).  A thrown store error is caught, and an
unknown metric type is logged; in both cases null (none) is returned so
the metric is filtered out later.  Otherwise the key (the metric type,
or "replies:<text>" under a truthy text filter) and the value. -/
def processMetric (fetched : Except String (List Campaign)) (metric : MetricSpec) :
    Option (String × Nat) :=
  match fetched with
  | .error _ => none
  | .ok campaigns =>
    match metric.type with
    | "messagesSent" => some ("messagesSent", getMessagesSent campaigns)
    | "campaignsTotal" => some ("campaignsTotal", getCampaignsTotal campaigns)
    | "replies" =>
      let textFilter := match metric.filterText with
        | some t => if t == "" then none else some t
        | none => none
      let key := match textFilter with
        | some t => "replies:" ++ t
        | none => "replies"
      some (key, getReplies campaigns textFilter)
    | "views" => some ("views", getViews campaigns)
    | "errors" => some ("errors", getErrors campaigns)
    | _ => none

/-- stats[key] = value on a JS object: replaces the value in place when
the key already exists, otherwise appends the pair in insertion order. -/
def objSet (stats : List (String × Nat)) (key : String) (value : Nat) : List (String × Nat) :=
  if stats.any (fun kv => kv.1 == key) then
    stats.map (fun kv => if kv.1 == key then (key, value) else kv)
  else stats ++ [(key, value)]

/-- processMetrics: processes every requested metric in parallel, each
against the settled outcome of its own store interaction (`fetches`,
indexwise), then builds the stats object, skipping null results. -/
def processMetrics (fetches : List (Except String (List Campaign)))
    (metrics : List MetricSpec) : List (String × Nat) :=
  ((metrics.zip fetches).map (fun mf => processMetric mf.2 mf.1)).foldl
    (fun stats r =>
      match r with
      | some kv => objSet stats kv.1 kv.2
      | none => stats) []

/-- C9: a metric whose computation fails (its store read throws) or
whose type is unrecognized — exactly the cases where processMetric
returns null — is omitted from the output map, and the stats object is
identical to the one computed had that metric not been requested at
all; in particular the call itself does not fail. -/
theorem claim_C9 (m1 m2 : List MetricSpec)
    (f1 f2 : List (Except String (List Campaign)))
    (m : MetricSpec) (f : Except String (List Campaign))
    (hlen1 : m1.length = f1.length)
    (hbad : processMetric f m = none) :
    processMetrics (f1 ++ f :: f2) (m1 ++ m :: m2) =
      processMetrics (f1 ++ f2) (m1 ++ m2) := by
  unfold processMetrics
  rw [List.zip_append hlen1, List.zip_append hlen1]
  rw [List.map_append, List.map_append]
  rw [List.foldl_append, List.foldl_append]
  have hcons : (m :: m2).zip (f :: f2) = (m, f) :: m2.zip f2 := rfl
  rw [hcons, List.map_cons, List.foldl_cons]
  simp only [hbad]

/-- Witness for C9 at a concrete request: a recognized metric before
and after an unrecognized one; the unknown metric is dropped and the
stats object equals the one for the two-metric request. -/
theorem claim_C9_witness :
    ([⟨"errors", none⟩] : List MetricSpec).length =
      ([Except.ok [⟨3, []⟩]] : List (Except String (List Campaign))).length ∧
    processMetric (Except.ok []) ⟨"bogus", none⟩ = none ∧
    processMetrics [Except.ok [⟨3, []⟩], Except.ok [], Except.ok [⟨3, []⟩]]
        [⟨"errors", none⟩, ⟨"bogus", none⟩, ⟨"messagesSent", none⟩] =
      processMetrics [Except.ok [⟨3, []⟩], Except.ok [⟨3, []⟩]]
        [⟨"errors", none⟩, ⟨"messagesSent", none⟩] :=
  ⟨rfl, rfl,
    claim_C9 [⟨"errors", none⟩] [⟨"messagesSent", none⟩]
      [Except.ok [⟨3, []⟩]] [Except.ok [⟨3, []⟩]]
      ⟨"bogus", none⟩ (Except.ok []) rfl rfl⟩

end AnalyticsService

namespace DashboardService

/-- Document ids (Mongo ObjectIds) abstracted as naturals. -/
abbrev ObjectId := Nat

/-- Report as sent by the caller: _id and position may be absent; a
missing or non-string name/type is modelled as the empty string (it
fails the same validation checks).  Metrics share the metrics engine's
vocabulary; filters are carried through untouched. -/
structure ReportInput where
  rid : Option ObjectId := none
  position : Option Int := none
  name : String := ""
  type : String := ""
  metrics : List AnalyticsService.MetricSpec := []
  filters : List (String × String) := []
deriving Repr, DecidableEq

/-- Report as stored on a dashboard after normalization. -/
structure Report where
  rid : ObjectId
  position : Int
  name : String
  type : String
  metrics : List AnalyticsService.MetricSpec
  filters : List (String × String)
deriving Repr, DecidableEq

def validTypes : List String := ["number", "pie", "bar"]

def validMetricTypes : List String :=
  ["messagesSent", "campaignsTotal", "replies", "views", "errors"]

/-- validateReport: collects the validation errors of one report against
the positions already used in this batch (error strings abbreviated;
only emptiness of the list matters to the callers). -/
def validateReport (report : ReportInput) (existingPositions : List Int) : List String :=
  (if jsTrim report.name == "" then ["Report name is required"] else []) ++
  (if !(validTypes.contains report.type) then
    ["Report type is required and must be one of: number, pie, bar"] else []) ++
  (if report.metrics.isEmpty then
    ["Report must have at least one metric with a type"]
  else
    report.metrics.flatMap (fun metric =>
      (if metric.type == "" then ["Metric must have a type"] else []) ++
      (if metric.type != "" && !(validMetricTypes.contains metric.type) then
        ["Invalid metric type"] else []))) ++
  (match report.position with
   | some p =>
     (if p < 1 then ["Position must be a positive integer"] else []) ++
     (if existingPositions.contains p then ["Position already exists"] else [])
   | none => [])

/-- The scan of getNextPosition over the sorted position list: the first
index i with sorted[i] != i+1 yields i+1, else length+1 (the counter n
is i+1). -/
def firstGapFrom : List Int → Int → Int
  | [], n => n
  | x :: xs, n => if x != n then n else firstGapFrom xs (n + 1)

/-- getNextPosition: smallest positive integer not yet used — the first
gap of the ascending-sorted used positions, else max index + 1. -/
def getNextPosition (existingPositions : List Int) : Int :=
  if existingPositions.isEmpty then 1
  else firstGapFrom (existingPositions.insertionSort (fun a b => a ≤ b)) 1

/-- The forEach loop of normalizeReports: validates each report against
the positions used so far, fills a missing position with
getNextPosition, and accumulates the used positions and the normalized
reports.  Fresh _id generation is abstracted to id 0 (no claim depends
on a generated id). -/
def normalizeLoop : List ReportInput → List Int → List Report →
    Except String (List Int × List Report)
  | [], existingPositions, acc => .ok (existingPositions, acc)
  | report :: rest, existingPositions, acc =>
    let errors := validateReport report existingPositions
    if !errors.isEmpty then .error (String.intercalate ", " errors)
    else
      let position := match report.position with
        | some p => p
        | none => getNextPosition existingPositions
      let normalized : Report :=
        { rid := report.rid.getD 0
          position := position
          name := jsTrim report.name
          type := report.type
          metrics := report.metrics
          filters := report.filters }
      normalizeLoop rest (existingPositions ++ [position]) (acc ++ [normalized])

/-- The final contiguity scan of normalizeReports: sorted[i] must be
i+1 for every i (the counter n is i+1). -/
def seqFrom : List Int → Int → Bool
  | [], _ => true
  | x :: xs, n => x == n && seqFrom xs (n + 1)

/-- normalizeReports: runs the validation/assignment loop and then
requires the assigned positions, sorted ascending, to be exactly
1..N; otherwise the whole call fails with a validation error. -/
def normalizeReports (reports : List ReportInput) : Except String (List Report) :=
  match normalizeLoop reports [] [] with
  | .error e => .error e
  | .ok (existingPositions, normalizedReports) =>
    if normalizedReports.isEmpty then .ok normalizedReports
    else
      let sorted := existingPositions.insertionSort (fun a b => a ≤ b)
      if sorted.head? != some 1 then .error "Positions must start from 1"
      else if !(seqFrom sorted 1) then
        .error "Positions must be sequential starting from 1. Found gap"
      else .ok normalizedReports

/-- The greedy position assignment normalizeReports performs over a
report list, collected without aborting: an explicit position is taken
as is, a missing one is filled with getNextPosition over the positions
used so far. -/
def assignPositions : List ReportInput → List Int → List Int
  | [], existingPositions => existingPositions
  | report :: rest, existingPositions =>
    let position := match report.position with
      | some p => p
      | none => getNextPosition existingPositions
    assignPositions rest (existingPositions ++ [position])

/-- The batch-independent part of validateReport: non-empty trimmed
name, recognized type, non-empty metrics with recognized types, and,
when a position is supplied, a positive integer. -/
def fieldValid (report : ReportInput) : Bool :=
  jsTrim report.name != "" &&
  validTypes.contains report.type &&
  !report.metrics.isEmpty &&
  report.metrics.all (fun metric => validMetricTypes.contains metric.type) &&
  (match report.position with
   | some p => decide (1 ≤ p)
   | none => true)

/-- Whether the assignment loop never meets an explicit position that
was already used in the batch (the only batch-dependent validation). -/
def noExplicitDup : List ReportInput → List Int → Bool
  | [], _ => true
  | report :: rest, existingPositions =>
    match report.position with
    | some p =>
      !(existingPositions.contains p) && noExplicitDup rest (existingPositions ++ [p])
    | none => noExplicitDup rest (existingPositions ++ [getNextPosition existingPositions])

/-- The list n, n+1, ..., n+k-1. -/
def rangeFrom (n : Int) : Nat → List Int
  | 0 => []
  | k + 1 => n :: rangeFrom (n + 1) k

theorem mem_rangeFrom (n : Int) (k : Nat) (p : Int) :
    p ∈ rangeFrom n k ↔ n ≤ p ∧ p < n + k := by
  induction k generalizing n with
  | zero => simp [rangeFrom]
  | succ k ih =>
    simp only [rangeFrom, List.mem_cons, ih (n + 1)]
    constructor
    · rintro (rfl | ⟨h1, h2⟩) <;> (constructor <;> omega)
    · rintro ⟨h1, h2⟩
      by_cases hp : p = n
      · exact Or.inl hp
      · refine Or.inr ⟨by omega, by omega⟩

theorem length_rangeFrom (n : Int) (k : Nat) : (rangeFrom n k).length = k := by
  induction k generalizing n with
  | zero => rfl
  | succ k ih => simp [rangeFrom, ih (n + 1)]

theorem nodup_rangeFrom (n : Int) (k : Nat) : (rangeFrom n k).Nodup := by
  induction k generalizing n with
  | zero => simp [rangeFrom]
  | succ k ih =>
    simp only [rangeFrom, List.nodup_cons]
    refine ⟨?_, ih (n + 1)⟩
    rw [mem_rangeFrom]
    omega

theorem sorted_rangeFrom (n : Int) (k : Nat) :
    (rangeFrom n k).Sorted (fun a b => a ≤ b) := by
  induction k generalizing n with
  | zero => simp [rangeFrom]
  | succ k ih =>
    simp only [rangeFrom, List.sorted_cons]
    refine ⟨?_, ih (n + 1)⟩
    intro b hb
    rw [mem_rangeFrom] at hb
    omega

theorem seqFrom_iff (l : List Int) (n : Int) :
    seqFrom l n = true ↔ l = rangeFrom n l.length := by
  induction l generalizing n with
  | nil => simp [seqFrom, rangeFrom]
  | cons x xs ih =>
    simp only [seqFrom, Bool.and_eq_true, beq_iff_eq, List.length_cons, rangeFrom,
      List.cons_eq_cons, ih (n + 1)]

theorem length_assignPositions (rs : List ReportInput) (poss : List Int) :
    (assignPositions rs poss).length = poss.length + rs.length := by
  induction rs generalizing poss with
  | nil => simp [assignPositions]
  | cons r rest ih =>
    rw [assignPositions, ih]
    simp
    omega

theorem assignPositions_extends (rs : List ReportInput) (poss : List Int) :
    ∃ t, assignPositions rs poss = poss ++ t := by
  induction rs generalizing poss with
  | nil => exact ⟨[], by simp [assignPositions]⟩
  | cons r rest ih =>
    rw [assignPositions]
    obtain ⟨t, ht⟩ := ih (poss ++ [(match r.position with
      | some p => p
      | none => getNextPosition poss)])
    refine ⟨(match r.position with
      | some p => p
      | none => getNextPosition poss) :: t, ?_⟩
    rw [ht, List.append_assoc]
    rfl

theorem flatMap_eq_nil_of_forall (l : List α) (f : α → List β)
    (h : ∀ a ∈ l, f a = []) : l.flatMap f = [] := by
  induction l with
  | nil => rfl
  | cons x xs ih =>
    rw [List.flatMap_cons, h x (List.mem_cons_self x xs),
      ih (fun a ha => h a (List.mem_cons_of_mem x ha))]
    rfl

theorem validateReport_empty_iff (report : ReportInput) (poss : List Int)
    (hv : fieldValid report = true) :
    (validateReport report poss).isEmpty =
      (match report.position with
       | some p => !(poss.contains p)
       | none => true) := by
  unfold fieldValid at hv
  simp only [Bool.and_eq_true] at hv
  obtain ⟨⟨⟨⟨h1, h2⟩, h3⟩, h4⟩, h5⟩ := hv
  have h1' : jsTrim report.name ≠ "" := by simpa using h1
  have hc1 : (jsTrim report.name == "") = false := beq_eq_false_iff_ne.mpr h1'
  have hc3 : report.metrics.isEmpty = false := by simpa using h3
  have hflat : report.metrics.flatMap (fun metric =>
      (if metric.type == "" then ["Metric must have a type"] else []) ++
      (if metric.type != "" && !(validMetricTypes.contains metric.type) then
        ["Invalid metric type"] else [])) = [] := by
    apply flatMap_eq_nil_of_forall
    intro metric hm
    have hcm : validMetricTypes.contains metric.type = true :=
      (List.all_eq_true.mp h4) metric hm
    have hne : metric.type ≠ "" := by
      intro hE
      rw [hE] at hcm
      simp [validMetricTypes] at hcm
    have hne' : (metric.type == "") = false := beq_eq_false_iff_ne.mpr hne
    rw [hne', hcm]
    simp
  unfold validateReport
  rw [hc1, hc3, hflat, h2]
  cases hpos : report.position with
  | none => simp
  | some p =>
    rw [hpos] at h5
    have h5' : (1 : Int) ≤ p := of_decide_eq_true h5
    have hnl : ¬(p < 1) := by omega
    by_cases hmemp : p ∈ poss <;> simp [hnl, hmemp]

theorem normalizeLoop_ok (rs : List ReportInput) :
    ∀ (poss : List Int) (acc : List Report),
    (∀ r ∈ rs, fieldValid r = true) →
    (noExplicitDup rs poss = true →
      ∃ reports, normalizeLoop rs poss acc = Except.ok (assignPositions rs poss, reports) ∧
        reports.length = acc.length + rs.length) ∧
    (noExplicitDup rs poss = false →
      ∃ e, normalizeLoop rs poss acc = Except.error e) := by
  induction rs with
  | nil =>
    intro poss acc hv
    constructor
    · intro h
      exact ⟨acc, rfl, by simp⟩
    · intro h
      simp [noExplicitDup] at h
  | cons report rest ih =>
    intro poss acc hv
    have hvr : fieldValid report = true := hv report (List.mem_cons_self report rest)
    have hvrest : ∀ x ∈ rest, fieldValid x = true :=
      fun x hx => hv x (List.mem_cons_of_mem report hx)
    have hemp := validateReport_empty_iff report poss hvr
    cases hpos : report.position with
    | some p =>
      simp only [hpos] at hemp
      simp only [normalizeLoop, noExplicitDup, assignPositions, hpos]
      by_cases hc : poss.contains p = true
      · have hie : (validateReport report poss).isEmpty = false := by
          rw [hemp, hc]
          rfl
        constructor
        · intro h
          rw [hc] at h
          simp at h
        · intro h
          rw [hie]
          exact ⟨_, rfl⟩
      · have hc' : poss.contains p = false := by
          cases hcc : poss.contains p
          · rfl
          · exact absurd hcc hc
        have hie : (validateReport report poss).isEmpty = true := by
          rw [hemp, hc']
          rfl
        rw [hie, hc']
        simp only [Bool.not_true, Bool.false_eq_true, if_false, Bool.not_false,
          Bool.true_and]
        exact ⟨fun h => by
            obtain ⟨reports, hr, hl⟩ := (ih (poss ++ [p]) (acc ++
              [{ rid := report.rid.getD 0
                 position := p
                 name := jsTrim report.name
                 type := report.type
                 metrics := report.metrics
                 filters := report.filters }]) hvrest).1 h
            exact ⟨reports, hr, by rw [hl]; simp; omega⟩,
          fun h => (ih (poss ++ [p]) _ hvrest).2 h⟩
    | none =>
      simp only [hpos] at hemp
      simp only [normalizeLoop, noExplicitDup, assignPositions, hpos]
      rw [hemp]
      simp only [Bool.not_true, Bool.false_eq_true, if_false]
      exact ⟨fun h => by
          obtain ⟨reports, hr, hl⟩ := (ih (poss ++ [getNextPosition poss]) (acc ++
            [{ rid := report.rid.getD 0
               position := getNextPosition poss
               name := jsTrim report.name
               type := report.type
               metrics := report.metrics
               filters := report.filters }]) hvrest).1 h
          exact ⟨reports, hr, by rw [hl]; simp; omega⟩,
        fun h => (ih (poss ++ [getNextPosition poss]) _ hvrest).2 h⟩

theorem not_nodup_of_explicitDup (rs : List ReportInput) :
    ∀ poss : List Int, noExplicitDup rs poss = false →
    ¬ (assignPositions rs poss).Nodup := by
  induction rs with
  | nil =>
    intro poss h
    simp [noExplicitDup] at h
  | cons report rest ih =>
    intro poss h
    cases hpos : report.position with
    | some p =>
      simp only [noExplicitDup, hpos] at h
      simp only [assignPositions, hpos]
      by_cases hc : poss.contains p = true
      · obtain ⟨t, ht⟩ := assignPositions_extends rest (poss ++ [p])
        rw [ht]
        intro hnd
        have hnd1 : (poss ++ [p]).Nodup := List.Nodup.of_append_left hnd
        have hdisj := List.disjoint_of_nodup_append hnd1
        have hpm : p ∈ poss := by simpa using hc
        exact hdisj hpm (List.mem_singleton.mpr rfl)
      · have hc' : poss.contains p = false := by
          cases hcc : poss.contains p
          · rfl
          · exact absurd hcc hc
        rw [hc'] at h
        simp only [Bool.not_false, Bool.true_and] at h
        exact ih (poss ++ [p]) h
    | none =>
      simp only [noExplicitDup, hpos] at h
      simp only [assignPositions, hpos]
      exact ih (poss ++ [getNextPosition poss]) h

theorem nodup_of_mem_iff (l : List Int) (N : Nat) (hlen : l.length = N)
    (hmem : ∀ p : Int, p ∈ l ↔ 1 ≤ p ∧ p ≤ (N : Int)) : l.Nodup := by
  have htf : l.toFinset = (rangeFrom 1 N).toFinset := by
    ext p
    rw [List.mem_toFinset, List.mem_toFinset, hmem, mem_rangeFrom]
    omega
  have hrn : (rangeFrom 1 N).Nodup := nodup_rangeFrom 1 N
  have h1 := List.card_toFinset l
  have h2 := List.card_toFinset (rangeFrom 1 N)
  rw [htf, h2, List.dedup_eq_self.mpr hrn, length_rangeFrom] at h1
  have heq : l.dedup = l :=
    (List.dedup_sublist l).eq_of_length (by rw [← h1, hlen])
  exact List.dedup_eq_self.mp heq

theorem sorted_eq_rangeFrom (l : List Int) (N : Nat) (hlen : l.length = N)
    (hmem : ∀ p : Int, p ∈ l ↔ 1 ≤ p ∧ p ≤ (N : Int)) (hnd : l.Nodup) :
    l.insertionSort (fun a b => a ≤ b) = rangeFrom 1 N := by
  have hperm : List.Perm (l.insertionSort (fun a b => a ≤ b)) l :=
    List.perm_insertionSort _ l
  have hnd2 : (l.insertionSort (fun a b => a ≤ b)).Nodup := hperm.nodup_iff.mpr hnd
  have htf : (l.insertionSort (fun a b => a ≤ b)).toFinset = (rangeFrom 1 N).toFinset := by
    ext p
    rw [List.mem_toFinset, List.mem_toFinset, hperm.mem_iff, hmem, mem_rangeFrom]
    omega
  have hperm2 := List.perm_of_nodup_nodup_toFinset_eq hnd2 (nodup_rangeFrom 1 N) htf
  exact List.eq_of_perm_of_sorted hperm2 (List.sorted_insertionSort _ l)
    (sorted_rangeFrom 1 N)

/-- C5: for report lists whose entries all pass the per-report field
validation, normalizeReports succeeds exactly when the final assigned
position set (explicit positions kept, missing ones filled with the
smallest positive integer not yet used in the batch) equals {1, …, N}
for N the number of reports; otherwise the whole call fails with a
validation error and nothing is applied.  In particular
normalize([{position 1}, {position 3}]) raises a validation error while
normalize([{position 2}, {position 1}]) succeeds, yielding the position
set {1, 2} with the input order preserved (positions [2, 1]). -/
theorem claim_C5 (reports : List ReportInput)
    (hvalid : ∀ r ∈ reports, fieldValid r = true) :
    ((∃ out, normalizeReports reports = Except.ok out) ↔
      (∀ p : Int, p ∈ assignPositions reports [] ↔
        1 ≤ p ∧ p ≤ (reports.length : Int))) ∧
    (∃ e, normalizeReports
      [⟨none, some 1, "a", "number", [⟨"views", none⟩], []⟩,
       ⟨none, some 3, "b", "number", [⟨"views", none⟩], []⟩] = Except.error e) ∧
    (∃ out, normalizeReports
      [⟨none, some 2, "a", "number", [⟨"views", none⟩], []⟩,
       ⟨none, some 1, "b", "number", [⟨"views", none⟩], []⟩] = Except.ok out ∧
      out.map (fun r => r.position) = [2, 1]) := by
  refine ⟨⟨?_, ?_⟩, ?_, ?_⟩
  · rintro ⟨out, hout⟩
    have hdup : noExplicitDup reports [] = true := by
      cases hdd : noExplicitDup reports [] with
      | true => rfl
      | false =>
        obtain ⟨e, he⟩ := (normalizeLoop_ok reports [] [] hvalid).2 hdd
        simp only [normalizeReports, he] at hout
        exact absurd hout (by simp)
    obtain ⟨normalized, hloop, hlenn⟩ := (normalizeLoop_ok reports [] [] hvalid).1 hdup
    simp only [normalizeReports, hloop] at hout
    by_cases hni : normalized.isEmpty = true
    · have h0 : reports.length = 0 := by
        have := List.isEmpty_iff_length_eq_zero.mp hni
        omega
      have hrep : reports = [] := List.length_eq_zero.mp h0
      subst hrep
      intro p
      rw [show ((([] : List ReportInput).length : Int)) = 0 from rfl]
      constructor
      · intro h
        exact absurd h (List.not_mem_nil p)
      · intro h
        exact absurd rfl (by omega : ¬(0 : Int) = 0)
    · rw [if_neg hni] at hout
      by_cases hh : (((assignPositions reports []).insertionSort
          (fun a b => a ≤ b)).head? != some 1) = true
      · rw [if_pos hh] at hout
        exact absurd hout (by simp)
      · rw [if_neg hh] at hout
        by_cases hs : (!(seqFrom ((assignPositions reports []).insertionSort
            (fun a b => a ≤ b)) 1)) = true
        · rw [if_pos hs] at hout
          exact absurd hout (by simp)
        · have hseq : seqFrom ((assignPositions reports []).insertionSort
              (fun a b => a ≤ b)) 1 = true := by
            cases hq : seqFrom ((assignPositions reports []).insertionSort
              (fun a b => a ≤ b)) 1 with
            | true => rfl
            | false => exact absurd (by rw [hq]; rfl) hs
          have hsorted := (seqFrom_iff _ 1).mp hseq
          have hslen : ((assignPositions reports []).insertionSort
              (fun a b => a ≤ b)).length = reports.length := by
            rw [(List.perm_insertionSort _ _).length_eq, length_assignPositions]
            simp
          rw [hslen] at hsorted
          intro p
          rw [← (List.perm_insertionSort (fun a b => a ≤ b)
            (assignPositions reports [])).mem_iff, hsorted, mem_rangeFrom]
          omega
  · intro hmem
    have hlen : (assignPositions reports []).length = reports.length := by
      rw [length_assignPositions]
      simp
    have hnd : (assignPositions reports []).Nodup :=
      nodup_of_mem_iff _ reports.length hlen hmem
    have hdup : noExplicitDup reports [] = true := by
      cases hdd : noExplicitDup reports [] with
      | true => rfl
      | false => exact absurd hnd (not_nodup_of_explicitDup reports [] hdd)
    obtain ⟨normalized, hloop, hlenn⟩ := (normalizeLoop_ok reports [] [] hvalid).1 hdup
    simp only [normalizeReports, hloop]
    by_cases hni : normalized.isEmpty = true
    · rw [if_pos hni]
      exact ⟨normalized, rfl⟩
    · rw [if_neg hni]
      have hsort := sorted_eq_rangeFrom (assignPositions reports [])
        reports.length hlen hmem hnd
      have hN : 0 < reports.length := by
        have h0 : normalized.length ≠ 0 := by
          intro h0
          exact hni (List.isEmpty_iff_length_eq_zero.mpr h0)
        have hlenn' : normalized.length = reports.length := by
          rw [hlenn]
          simp
        omega
      obtain ⟨k, hk⟩ : ∃ k, reports.length = k + 1 :=
        ⟨reports.length - 1, by omega⟩
      rw [hsort, hk]
      have hhead : (((rangeFrom 1 (k + 1)).head?) != some 1) = false := by
        simp [rangeFrom]
      have hseq : seqFrom (rangeFrom 1 (k + 1)) 1 = true :=
        (seqFrom_iff _ 1).mpr (by rw [length_rangeFrom])
      rw [hhead, hseq]
      simp only [Bool.false_eq_true, if_false, Bool.not_true]
      exact ⟨normalized, rfl⟩
  · cases hres : normalizeReports
      [⟨none, some 1, "a", "number", [⟨"views", none⟩], []⟩,
       ⟨none, some 3, "b", "number", [⟨"views", none⟩], []⟩] with
    | error e => exact ⟨e, rfl⟩
    | ok out =>
      have hmatch : (match normalizeReports
          [⟨none, some 1, "a", "number", [⟨"views", none⟩], []⟩,
           ⟨none, some 3, "b", "number", [⟨"views", none⟩], []⟩] with
        | Except.error _ => true
        | Except.ok _ => false) = true := by decide
      rw [hres] at hmatch
      exact absurd hmatch (by simp)
  · cases hres : normalizeReports
      [⟨none, some 2, "a", "number", [⟨"views", none⟩], []⟩,
       ⟨none, some 1, "b", "number", [⟨"views", none⟩], []⟩] with
    | error e =>
      have hmatch : (match normalizeReports
          [⟨none, some 2, "a", "number", [⟨"views", none⟩], []⟩,
           ⟨none, some 1, "b", "number", [⟨"views", none⟩], []⟩] with
        | Except.error _ => false
        | Except.ok out => out.map (fun r => r.position) == [2, 1]) = true := by decide
      rw [hres] at hmatch
      exact absurd hmatch (by simp)
    | ok out =>
      have hmatch : (match normalizeReports
          [⟨none, some 2, "a", "number", [⟨"views", none⟩], []⟩,
           ⟨none, some 1, "b", "number", [⟨"views", none⟩], []⟩] with
        | Except.error _ => false
        | Except.ok out => out.map (fun r => r.position) == [2, 1]) = true := by decide
      rw [hres] at hmatch
      exact ⟨out, rfl, by simpa using hmatch⟩

/-- Witness for C5 at the concrete two-report list with explicit
positions 2 and 1: the hypothesis holds and the conclusion follows by
applying the theorem. -/
theorem claim_C5_witness :
    (∀ r ∈ ([⟨none, some 2, "a", "number", [⟨"views", none⟩], []⟩,
             ⟨none, some 1, "b", "number", [⟨"views", none⟩], []⟩] : List ReportInput),
       fieldValid r = true) ∧
    (((∃ out, normalizeReports
        ([⟨none, some 2, "a", "number", [⟨"views", none⟩], []⟩,
          ⟨none, some 1, "b", "number", [⟨"views", none⟩], []⟩] : List ReportInput) =
          Except.ok out) ↔
      (∀ p : Int, p ∈ assignPositions
          ([⟨none, some 2, "a", "number", [⟨"views", none⟩], []⟩,
            ⟨none, some 1, "b", "number", [⟨"views", none⟩], []⟩] : List ReportInput) [] ↔
        1 ≤ p ∧ p ≤ ((([⟨none, some 2, "a", "number", [⟨"views", none⟩], []⟩,
          ⟨none, some 1, "b", "number", [⟨"views", none⟩], []⟩] :
            List ReportInput).length : Int)))) ∧
    (∃ e, normalizeReports
      [⟨none, some 1, "a", "number", [⟨"views", none⟩], []⟩,
       ⟨none, some 3, "b", "number", [⟨"views", none⟩], []⟩] = Except.error e) ∧
    (∃ out, normalizeReports
      [⟨none, some 2, "a", "number", [⟨"views", none⟩], []⟩,
       ⟨none, some 1, "b", "number", [⟨"views", none⟩], []⟩] = Except.ok out ∧
      out.map (fun r => r.position) = [2, 1])) :=
  ⟨by decide, claim_C5 _ (by decide)⟩

/-- Dashboard document of the website.dashboards collection. -/
structure Dashboard where
  did : ObjectId
  reports : List Report
deriving Repr, DecidableEq

/-- Project document of the clients projects collection: its dashboards
array is the capability set guarding dashboard access. -/
structure Project where
  pid : ObjectId
  dashboards : List ObjectId
deriving Repr, DecidableEq

/-- The two collections the dashboard service touches. -/
structure DB where
  dashboards : List Dashboard
  projects : List Project
deriving Repr, DecidableEq

/-- findOne on the projects collection by _id. -/
def findProject (db : DB) (projectId : ObjectId) : Option Project :=
  db.projects.find? (fun project => project.pid == projectId)

/-- findOne on the dashboards collection by _id. -/
def findDashboard (db : DB) (dashboardId : ObjectId) : Option Dashboard :=
  db.dashboards.find? (fun dashboard => dashboard.did == dashboardId)

def accessDeniedMsg : String :=
  "Access denied: Project does not have access to this dashboard"

/-- updateOne on the dashboards collection: $set the reports array of
the dashboard with the given _id. -/
def updateDashboardReports (db : DB) (dashboardId : ObjectId) (reports : List Report) : DB :=
  { db with dashboards := db.dashboards.map (fun dashboard =>
      if dashboard.did == dashboardId then { dashboard with reports := reports }
      else dashboard) }

/-- The renumber pass of the add/remove mutations: every report's
position is overwritten with its list index + 1. -/
def renumber (reports : List Report) : List Report :=
  mapIdxFrom (fun index report => { report with position := (index : Int) + 1 }) 0 reports

/-- createDashboard: normalizes the supplied reports (failure aborts
before any write), inserts the dashboard document with a fresh _id,
then adds the id to the project's dashboards array ($addToSet); a
failure of that second step (`grantFails`) is caught and only logged,
so the call still succeeds and returns the new id. -/
def createDashboard (projectId : ObjectId) (reportsData : Option (List ReportInput))
    (freshDashId : ObjectId) (grantFails : Bool) (db : DB) :
    Except String ObjectId × DB :=
  match (match reportsData with
         | some reports => normalizeReports reports
         | none => Except.ok []) with
  | .error e => (.error e, db)
  | .ok reports =>
    let dashboard : Dashboard := { did := freshDashId, reports := reports }
    let db1 : DB := { db with dashboards := db.dashboards ++ [dashboard] }
    if grantFails then (.ok freshDashId, db1)
    else
      let db2 : DB := { db1 with projects := db1.projects.map (fun project =>
        if project.pid == projectId then
          { project with dashboards :=
              if project.dashboards.contains freshDashId then project.dashboards
              else project.dashboards ++ [freshDashId] }
        else project) }
      (.ok freshDashId, db2)

/-- getDashboardById: project lookup, capability check (the dashboard id
must be in the project's dashboards array), then dashboard lookup. -/
def getDashboardById (dashboardId projectId : ObjectId) (db : DB) :
    Except String Dashboard :=
  match findProject db projectId with
  | none => .error "Project not found"
  | some project =>
    if !(project.dashboards.contains dashboardId) then .error accessDeniedMsg
    else
      match findDashboard db dashboardId with
      | none => .error "Dashboard not found"
      | some dashboard => .ok dashboard

/-- updateDashboard: same access checks, then replaces the reports array
with the normalized supplied reports (or keeps the existing ones when
none are supplied) and returns the refetched document (present, since
updateOne keeps the document in place). -/
def updateDashboard (dashboardId projectId : ObjectId)
    (reportsData : Option (List ReportInput)) (db : DB) :
    Except String Dashboard × DB :=
  match findProject db projectId with
  | none => (.error "Project not found", db)
  | some project =>
    if !(project.dashboards.contains dashboardId) then (.error accessDeniedMsg, db)
    else
      match findDashboard db dashboardId with
      | none => (.error "Dashboard not found", db)
      | some existingDashboard =>
        match (match reportsData with
               | some reports => normalizeReports reports
               | none => Except.ok existingDashboard.reports) with
        | .error e => (.error e, db)
        | .ok reports =>
          let db2 := updateDashboardReports db dashboardId reports
          (.ok ((findDashboard db2 dashboardId).getD
            { did := dashboardId, reports := reports }), db2)

/-- addReportToDashboard: access checks, then validates only
name/type/metrics of the new report (the supplied position is accepted,
used as the initial position value, and never rejected), appends it to
the existing reports and renumbers the whole list 1..N+1 before the
updateOne. -/
def addReportToDashboard (dashboardId projectId : ObjectId) (reportData : ReportInput)
    (freshReportId : ObjectId) (db : DB) : Except String Dashboard × DB :=
  match findProject db projectId with
  | none => (.error "Project not found", db)
  | some project =>
    if !(project.dashboards.contains dashboardId) then (.error accessDeniedMsg, db)
    else
      match findDashboard db dashboardId with
      | none => (.error "Dashboard not found", db)
      | some existingDashboard =>
        let existingReports := existingDashboard.reports
        let existingPositions := existingReports.map (fun r => r.position)
        if jsTrim reportData.name == "" then (.error "Report name is required", db)
        else if !(validTypes.contains reportData.type) then
          (.error "Report type is required and must be one of: number, pie, bar", db)
        else if reportData.metrics.isEmpty then
          (.error "Report must have at least one metric with a type", db)
        else if !(reportData.metrics.all (fun metric =>
            metric.type != "" && validMetricTypes.contains metric.type)) then
          (.error "Invalid metric type", db)
        else
          let position := match reportData.position with
            | some p => p
            | none => getNextPosition existingPositions
          let newReport : Report :=
            { rid := reportData.rid.getD freshReportId
              position := position
              name := jsTrim reportData.name
              type := reportData.type
              metrics := reportData.metrics
              filters := reportData.filters }
          let allReports := renumber (existingReports ++ [newReport])
          let db2 := updateDashboardReports db dashboardId allReports
          (.ok ((findDashboard db2 dashboardId).getD
            { did := dashboardId, reports := allReports }), db2)

/-- removeReportFromDashboard: access checks, findIndex of the report by
_id (not-found aborts before the write), removal by index, renumber of
the remainder 1..N-1, then the updateOne. -/
def removeReportFromDashboard (dashboardId projectId reportId : ObjectId) (db : DB) :
    Except String Dashboard × DB :=
  match findProject db projectId with
  | none => (.error "Project not found", db)
  | some project =>
    if !(project.dashboards.contains dashboardId) then (.error accessDeniedMsg, db)
    else
      match findDashboard db dashboardId with
      | none => (.error "Dashboard not found", db)
      | some existingDashboard =>
        let existingReports := existingDashboard.reports
        match existingReports.findIdx? (fun r => r.rid == reportId) with
        | none => (.error "Report not found", db)
        | some reportIndex =>
          let updatedReports := renumber (existingReports.eraseIdx reportIndex)
          let db2 := updateDashboardReports db dashboardId updatedReports
          (.ok ((findDashboard db2 dashboardId).getD
            { did := dashboardId, reports := updatedReports }), db2)

theorem mapIdxFrom_const (g : α → β) (k : Nat) (xs : List α) :
    mapIdxFrom (fun _ x => g x) k xs = xs.map g := by
  induction xs generalizing k with
  | nil => rfl
  | cons x xs ih => simp [mapIdxFrom, ih]

theorem mapIdxFrom_pos (k : Nat) (l : List α) :
    mapIdxFrom (fun i _ => (i : Int) + 1) k l = rangeFrom ((k : Int) + 1) l.length := by
  induction l generalizing k with
  | nil => rfl
  | cons x xs ih =>
    simp only [mapIdxFrom, List.length_cons, rangeFrom]
    have hcast : (((k + 1 : Nat) : Int) + 1) = ((k : Int) + 1 + 1) := by
      push_cast
      ring
    rw [ih (k + 1), hcast]

/-- The fields of a stored report other than its position. -/
def reportCore (r : Report) :
    ObjectId × String × String × List AnalyticsService.MetricSpec ×
      List (String × String) :=
  (r.rid, r.name, r.type, r.metrics, r.filters)

theorem length_renumber (l : List Report) : (renumber l).length = l.length :=
  length_mapIdxFrom _ 0 l

theorem map_position_renumber (l : List Report) :
    (renumber l).map (fun r => r.position) = rangeFrom 1 l.length := by
  unfold renumber
  rw [map_mapIdxFrom]
  have hfun : (fun (j : Nat) (x : Report) =>
      ({ x with position := (j : Int) + 1 } : Report).position) =
      (fun (j : Nat) (_ : Report) => (j : Int) + 1) := rfl
  rw [hfun, mapIdxFrom_pos 0 l]
  norm_num

theorem map_core_renumber (l : List Report) :
    (renumber l).map reportCore = l.map reportCore := by
  unfold renumber
  rw [map_mapIdxFrom]
  have hfun : (fun (j : Nat) (x : Report) =>
      reportCore { x with position := (j : Int) + 1 }) =
      (fun (_ : Nat) (x : Report) => reportCore x) := rfl
  rw [hfun, mapIdxFrom_const]

theorem find?_did_map_update (l : List Dashboard) (dashboardId : ObjectId)
    (reports : List Report) (d : Dashboard)
    (h : l.find? (fun x => x.did == dashboardId) = some d) :
    (l.map (fun x =>
      if x.did == dashboardId then { x with reports := reports } else x)).find?
        (fun x => x.did == dashboardId) = some { d with reports := reports } := by
  have hcomp : ((fun x : Dashboard => x.did == dashboardId) ∘ (fun x =>
      if x.did == dashboardId then { x with reports := reports } else x)) =
      (fun x : Dashboard => x.did == dashboardId) := by
    funext x
    by_cases hx : x.did = dashboardId
    · simp [Function.comp_apply, hx]
    · simp [Function.comp_apply, hx]
  rw [List.find?_map, hcomp, h]
  have hd := List.find?_some h
  simp only [beq_iff_eq] at hd
  simp [hd]

theorem findDashboard_update (db : DB) (dashboardId : ObjectId)
    (reports : List Report) (d : Dashboard)
    (h : findDashboard db dashboardId = some d) :
    findDashboard (updateDashboardReports db dashboardId reports) dashboardId =
      some { d with reports := reports } :=
  find?_did_map_update db.dashboards dashboardId reports d h

/-- C6: on any dashboard with N reports, adding a report with valid
name, type and metrics always succeeds — the supplied position value is
never a reason to reject — and the stored list is the old list with the
new report appended, renumbered to positions exactly 1..N+1 in list
order. -/
theorem claim_C6 (dashboardId projectId : ObjectId) (reportData : ReportInput)
    (freshReportId : ObjectId) (db : DB) (project : Project) (dashboard : Dashboard)
    (hproj : findProject db projectId = some project)
    (hacc : project.dashboards.contains dashboardId = true)
    (hdash : findDashboard db dashboardId = some dashboard)
    (hname : jsTrim reportData.name ≠ "")
    (htype : validTypes.contains reportData.type = true)
    (hmet : reportData.metrics ≠ [])
    (hmetv : ∀ m ∈ reportData.metrics, validMetricTypes.contains m.type = true) :
    ∃ updated db2,
      addReportToDashboard dashboardId projectId reportData freshReportId db =
        (Except.ok updated, db2) ∧
      updated.reports.length = dashboard.reports.length + 1 ∧
      updated.reports.map (fun r => r.position) =
        rangeFrom 1 (dashboard.reports.length + 1) ∧
      updated.reports.map reportCore =
        dashboard.reports.map reportCore ++
          [(reportData.rid.getD freshReportId, jsTrim reportData.name, reportData.type,
            reportData.metrics, reportData.filters)] := by
  have hname' : (jsTrim reportData.name == "") = false := beq_eq_false_iff_ne.mpr hname
  have hmet' : reportData.metrics.isEmpty = false := by
    rcases hmm : reportData.metrics with _ | ⟨a, as⟩
    · exact absurd hmm hmet
    · rfl
  have hall : (reportData.metrics.all (fun metric =>
      metric.type != "" && validMetricTypes.contains metric.type)) = true := by
    rw [List.all_eq_true]
    intro m hm
    have hcm := hmetv m hm
    have hne : m.type ≠ "" := by
      intro hE
      rw [hE] at hcm
      simp [validMetricTypes] at hcm
    have hcm' : m.type ∈ validMetricTypes := by simpa using hcm
    simp [hcm', hne]
  have hupd := findDashboard_update db dashboardId
    (renumber (dashboard.reports ++
      [{ rid := reportData.rid.getD freshReportId
         position := match reportData.position with
           | some p => p
           | none => getNextPosition (dashboard.reports.map (fun r => r.position))
         name := jsTrim reportData.name
         type := reportData.type
         metrics := reportData.metrics
         filters := reportData.filters }])) dashboard hdash
  refine ⟨{ dashboard with reports := renumber (dashboard.reports ++
      [{ rid := reportData.rid.getD freshReportId
         position := match reportData.position with
           | some p => p
           | none => getNextPosition (dashboard.reports.map (fun r => r.position))
         name := jsTrim reportData.name
         type := reportData.type
         metrics := reportData.metrics
         filters := reportData.filters }]) },
    updateDashboardReports db dashboardId (renumber (dashboard.reports ++
      [{ rid := reportData.rid.getD freshReportId
         position := match reportData.position with
           | some p => p
           | none => getNextPosition (dashboard.reports.map (fun r => r.position))
         name := jsTrim reportData.name
         type := reportData.type
         metrics := reportData.metrics
         filters := reportData.filters }])), ?_, ?_, ?_, ?_⟩
  · simp only [addReportToDashboard, hproj, hacc, hdash, hname', htype, hmet', hall,
      Bool.not_true, Bool.false_eq_true, if_false, Bool.not_false, if_true, hupd,
      Option.getD_some]
  · simp only [length_renumber, List.length_append, List.length_cons, List.length_nil]
  · rw [map_position_renumber, List.length_append]
    rfl
  · rw [map_core_renumber, List.map_append]
    rfl

/-- C7: on any dashboard, removing a report whose id is present removes
exactly the (first) report with that id and renumbers the remaining
N-1 reports 1..N-1 preserving their relative order; removing an absent
id fails with "Report not found" and leaves the database (hence the
reports list) unchanged. -/
theorem claim_C7 (dashboardId projectId reportId : ObjectId) (db : DB)
    (project : Project) (dashboard : Dashboard)
    (hproj : findProject db projectId = some project)
    (hacc : project.dashboards.contains dashboardId = true)
    (hdash : findDashboard db dashboardId = some dashboard) :
    (∀ i, dashboard.reports.findIdx? (fun r => r.rid == reportId) = some i →
      ∃ updated db2,
        removeReportFromDashboard dashboardId projectId reportId db =
          (Except.ok updated, db2) ∧
        updated.reports.length = dashboard.reports.length - 1 ∧
        updated.reports.map (fun r => r.position) =
          rangeFrom 1 (dashboard.reports.length - 1) ∧
        updated.reports.map reportCore =
          (dashboard.reports.eraseIdx i).map reportCore) ∧
    ((∀ r ∈ dashboard.reports, r.rid ≠ reportId) →
      removeReportFromDashboard dashboardId projectId reportId db =
        (Except.error "Report not found", db)) := by
  constructor
  · intro i hidx
    have hlt : i < dashboard.reports.length :=
      (List.findIdx?_eq_some_iff_findIdx_eq.mp hidx).1
    have hupd := findDashboard_update db dashboardId
      (renumber (dashboard.reports.eraseIdx i)) dashboard hdash
    have hlen : (dashboard.reports.eraseIdx i).length =
        dashboard.reports.length - 1 := by
      rw [List.length_eraseIdx]
      simp [hlt]
    refine ⟨{ dashboard with reports := renumber (dashboard.reports.eraseIdx i) },
      updateDashboardReports db dashboardId
        (renumber (dashboard.reports.eraseIdx i)), ?_, ?_, ?_, ?_⟩
    · simp only [removeReportFromDashboard, hproj, hacc, hdash, hidx,
        Bool.not_true, Bool.false_eq_true, if_false, hupd, Option.getD_some]
    · rw [length_renumber, hlen]
    · rw [map_position_renumber, hlen]
    · exact map_core_renumber (dashboard.reports.eraseIdx i)
  · intro hnone
    have hidx : dashboard.reports.findIdx? (fun r => r.rid == reportId) = none :=
      List.findIdx?_eq_none_iff.mpr
        (fun r hr => beq_eq_false_iff_ne.mpr (hnone r hr))
    simp only [removeReportFromDashboard, hproj, hacc, hdash, hidx,
      Bool.not_true, Bool.false_eq_true, if_false]

/-- C10: createDashboard first inserts the dashboard document and only
then grants the capability; when the grant step fails (here:
grantFails), the error is caught and the call still succeeds, returning
the fresh id, with the project documents unchanged — after which every
read or mutation of that dashboard through getDashboardById,
updateDashboard, addReportToDashboard or removeReportFromDashboard is
denied with the access-denied error, even though the dashboard document
exists. -/
theorem claim_C10 (projectId : ObjectId) (reportsData : Option (List ReportInput))
    (freshDashId : ObjectId) (db : DB) (project : Project)
    (hproj : findProject db projectId = some project)
    (hfresh : project.dashboards.contains freshDashId = false)
    (hnorm : ∀ rs, reportsData = some rs →
      ∃ out, normalizeReports rs = Except.ok out) :
    ∃ db2 reports,
      createDashboard projectId reportsData freshDashId true db =
        (Except.ok freshDashId, db2) ∧
      db2.projects = db.projects ∧
      db2.dashboards = db.dashboards ++ [{ did := freshDashId, reports := reports }] ∧
      getDashboardById freshDashId projectId db2 = Except.error accessDeniedMsg ∧
      (∀ rd, (updateDashboard freshDashId projectId rd db2).1 =
        Except.error accessDeniedMsg) ∧
      (∀ rd fid, (addReportToDashboard freshDashId projectId rd fid db2).1 =
        Except.error accessDeniedMsg) ∧
      (∀ rid, (removeReportFromDashboard freshDashId projectId rid db2).1 =
        Except.error accessDeniedMsg) := by
  suffices key : ∀ reports : List Report,
      (match reportsData with
       | some rs => normalizeReports rs
       | none => Except.ok []) = Except.ok reports →
      ∃ db2 reports',
        createDashboard projectId reportsData freshDashId true db =
          (Except.ok freshDashId, db2) ∧
        db2.projects = db.projects ∧
        db2.dashboards = db.dashboards ++
          [{ did := freshDashId, reports := reports' }] ∧
        getDashboardById freshDashId projectId db2 = Except.error accessDeniedMsg ∧
        (∀ rd, (updateDashboard freshDashId projectId rd db2).1 =
          Except.error accessDeniedMsg) ∧
        (∀ rd fid, (addReportToDashboard freshDashId projectId rd fid db2).1 =
          Except.error accessDeniedMsg) ∧
        (∀ rid, (removeReportFromDashboard freshDashId projectId rid db2).1 =
          Except.error accessDeniedMsg) by
    cases hrd : reportsData with
    | none =>
      subst hrd
      exact key [] rfl
    | some rs =>
      obtain ⟨out, hout⟩ := hnorm rs hrd
      subst hrd
      exact key out hout
  intro reports hmatch
  refine ⟨{ db with dashboards := db.dashboards ++
      [{ did := freshDashId, reports := reports }] }, reports, ?_, rfl, rfl, ?_, ?_, ?_, ?_⟩
  · simp only [createDashboard, hmatch, if_true]
  · have hproj2 : findProject { db with dashboards := db.dashboards ++
        [{ did := freshDashId, reports := reports }] } projectId = some project := hproj
    simp only [getDashboardById, hproj2, hfresh, Bool.not_false, if_true]
  · intro rd
    have hproj2 : findProject { db with dashboards := db.dashboards ++
        [{ did := freshDashId, reports := reports }] } projectId = some project := hproj
    simp only [updateDashboard, hproj2, hfresh, Bool.not_false, if_true]
  · intro rd fid
    have hproj2 : findProject { db with dashboards := db.dashboards ++
        [{ did := freshDashId, reports := reports }] } projectId = some project := hproj
    simp only [addReportToDashboard, hproj2, hfresh, Bool.not_false, if_true]
  · intro rid
    have hproj2 : findProject { db with dashboards := db.dashboards ++
        [{ did := freshDashId, reports := reports }] } projectId = some project := hproj
    simp only [removeReportFromDashboard, hproj2, hfresh, Bool.not_false, if_true]

/-- Witness for C6: a two-report dashboard and a valid new report that
supplies the bogus position 99; the hypotheses hold and the conclusion
follows by applying the theorem. -/
theorem claim_C6_witness :
    (findProject ⟨[⟨10, [⟨1, 1, "r1", "number", [⟨"views", none⟩], []⟩,
        ⟨2, 2, "r2", "pie", [⟨"errors", none⟩], []⟩]⟩], [⟨20, [10]⟩]⟩ 20 =
      some ⟨20, [10]⟩) ∧
    (Project.mk 20 [10]).dashboards.contains 10 = true ∧
    (findDashboard ⟨[⟨10, [⟨1, 1, "r1", "number", [⟨"views", none⟩], []⟩,
        ⟨2, 2, "r2", "pie", [⟨"errors", none⟩], []⟩]⟩], [⟨20, [10]⟩]⟩ 10 =
      some ⟨10, [⟨1, 1, "r1", "number", [⟨"views", none⟩], []⟩,
        ⟨2, 2, "r2", "pie", [⟨"errors", none⟩], []⟩]⟩) ∧
    jsTrim "new" ≠ "" ∧
    validTypes.contains "bar" = true ∧
    ([⟨"replies", none⟩] : List AnalyticsService.MetricSpec) ≠ [] ∧
    (∀ m ∈ ([⟨"replies", none⟩] : List AnalyticsService.MetricSpec),
      validMetricTypes.contains m.type = true) ∧
    (∃ updated db2,
      addReportToDashboard 10 20 ⟨none, some 99, "new", "bar", [⟨"replies", none⟩], []⟩ 3
          ⟨[⟨10, [⟨1, 1, "r1", "number", [⟨"views", none⟩], []⟩,
            ⟨2, 2, "r2", "pie", [⟨"errors", none⟩], []⟩]⟩], [⟨20, [10]⟩]⟩ =
        (Except.ok updated, db2) ∧
      updated.reports.length = ([⟨1, 1, "r1", "number", [⟨"views", none⟩], []⟩,
          ⟨2, 2, "r2", "pie", [⟨"errors", none⟩], []⟩] : List Report).length + 1 ∧
      updated.reports.map (fun r => r.position) =
        rangeFrom 1 (([⟨1, 1, "r1", "number", [⟨"views", none⟩], []⟩,
          ⟨2, 2, "r2", "pie", [⟨"errors", none⟩], []⟩] : List Report).length + 1) ∧
      updated.reports.map reportCore =
        ([⟨1, 1, "r1", "number", [⟨"views", none⟩], []⟩,
          ⟨2, 2, "r2", "pie", [⟨"errors", none⟩], []⟩] : List Report).map reportCore ++
          [((none : Option ObjectId).getD 3, jsTrim "new", "bar",
            ([⟨"replies", none⟩] : List AnalyticsService.MetricSpec),
            ([] : List (String × String)))]) :=
  ⟨by decide, by decide, by decide, by decide, by decide, by decide, by decide,
    claim_C6 10 20 ⟨none, some 99, "new", "bar", [⟨"replies", none⟩], []⟩ 3
      ⟨[⟨10, [⟨1, 1, "r1", "number", [⟨"views", none⟩], []⟩,
        ⟨2, 2, "r2", "pie", [⟨"errors", none⟩], []⟩]⟩], [⟨20, [10]⟩]⟩
      ⟨20, [10]⟩
      ⟨10, [⟨1, 1, "r1", "number", [⟨"views", none⟩], []⟩,
        ⟨2, 2, "r2", "pie", [⟨"errors", none⟩], []⟩]⟩
      (by decide) (by decide) (by decide) (by decide) (by decide) (by decide)
      (by decide)⟩

/-- Witness for C7: a three-report dashboard; the hypotheses hold and
the conclusion (both the present-id and the absent-id behaviour)
follows by applying the theorem. -/
theorem claim_C7_witness :
    (findProject ⟨[⟨11, [⟨1, 1, "a", "number", [⟨"views", none⟩], []⟩,
        ⟨2, 2, "b", "pie", [⟨"errors", none⟩], []⟩,
        ⟨3, 3, "c", "bar", [⟨"replies", none⟩], []⟩]⟩], [⟨21, [11]⟩]⟩ 21 =
      some ⟨21, [11]⟩) ∧
    (Project.mk 21 [11]).dashboards.contains 11 = true ∧
    (findDashboard ⟨[⟨11, [⟨1, 1, "a", "number", [⟨"views", none⟩], []⟩,
        ⟨2, 2, "b", "pie", [⟨"errors", none⟩], []⟩,
        ⟨3, 3, "c", "bar", [⟨"replies", none⟩], []⟩]⟩], [⟨21, [11]⟩]⟩ 11 =
      some ⟨11, [⟨1, 1, "a", "number", [⟨"views", none⟩], []⟩,
        ⟨2, 2, "b", "pie", [⟨"errors", none⟩], []⟩,
        ⟨3, 3, "c", "bar", [⟨"replies", none⟩], []⟩]⟩) ∧
    ((∀ i, (Dashboard.mk 11 [⟨1, 1, "a", "number", [⟨"views", none⟩], []⟩,
        ⟨2, 2, "b", "pie", [⟨"errors", none⟩], []⟩,
        ⟨3, 3, "c", "bar", [⟨"replies", none⟩], []⟩]).reports.findIdx?
          (fun r => r.rid == 2) = some i →
      ∃ updated db2,
        removeReportFromDashboard 11 21 2
            ⟨[⟨11, [⟨1, 1, "a", "number", [⟨"views", none⟩], []⟩,
              ⟨2, 2, "b", "pie", [⟨"errors", none⟩], []⟩,
              ⟨3, 3, "c", "bar", [⟨"replies", none⟩], []⟩]⟩], [⟨21, [11]⟩]⟩ =
          (Except.ok updated, db2) ∧
        updated.reports.length = (Dashboard.mk 11 [⟨1, 1, "a", "number",
          [⟨"views", none⟩], []⟩, ⟨2, 2, "b", "pie", [⟨"errors", none⟩], []⟩,
          ⟨3, 3, "c", "bar", [⟨"replies", none⟩], []⟩]).reports.length - 1 ∧
        updated.reports.map (fun r => r.position) =
          rangeFrom 1 ((Dashboard.mk 11 [⟨1, 1, "a", "number", [⟨"views", none⟩], []⟩,
            ⟨2, 2, "b", "pie", [⟨"errors", none⟩], []⟩,
            ⟨3, 3, "c", "bar", [⟨"replies", none⟩], []⟩]).reports.length - 1) ∧
        updated.reports.map reportCore =
          ((Dashboard.mk 11 [⟨1, 1, "a", "number", [⟨"views", none⟩], []⟩,
            ⟨2, 2, "b", "pie", [⟨"errors", none⟩], []⟩,
            ⟨3, 3, "c", "bar", [⟨"replies", none⟩], []⟩]).reports.eraseIdx i).map
              reportCore) ∧
    ((∀ r ∈ (Dashboard.mk 11 [⟨1, 1, "a", "number", [⟨"views", none⟩], []⟩,
        ⟨2, 2, "b", "pie", [⟨"errors", none⟩], []⟩,
        ⟨3, 3, "c", "bar", [⟨"replies", none⟩], []⟩]).reports, r.rid ≠ 2) →
      removeReportFromDashboard 11 21 2
          ⟨[⟨11, [⟨1, 1, "a", "number", [⟨"views", none⟩], []⟩,
            ⟨2, 2, "b", "pie", [⟨"errors", none⟩], []⟩,
            ⟨3, 3, "c", "bar", [⟨"replies", none⟩], []⟩]⟩], [⟨21, [11]⟩]⟩ =
        (Except.error "Report not found",
          ⟨[⟨11, [⟨1, 1, "a", "number", [⟨"views", none⟩], []⟩,
            ⟨2, 2, "b", "pie", [⟨"errors", none⟩], []⟩,
            ⟨3, 3, "c", "bar", [⟨"replies", none⟩], []⟩]⟩], [⟨21, [11]⟩]⟩))) :=
  ⟨by decide, by decide, by decide,
    claim_C7 11 21 2
      ⟨[⟨11, [⟨1, 1, "a", "number", [⟨"views", none⟩], []⟩,
        ⟨2, 2, "b", "pie", [⟨"errors", none⟩], []⟩,
        ⟨3, 3, "c", "bar", [⟨"replies", none⟩], []⟩]⟩], [⟨21, [11]⟩]⟩
      ⟨21, [11]⟩
      ⟨11, [⟨1, 1, "a", "number", [⟨"views", none⟩], []⟩,
        ⟨2, 2, "b", "pie", [⟨"errors", none⟩], []⟩,
        ⟨3, 3, "c", "bar", [⟨"replies", none⟩], []⟩]⟩
      (by decide) (by decide) (by decide)⟩

/-- Witness for C10: an empty dashboards collection, one project that
does not hold the fresh id, no initial reports; the hypotheses hold and
the conclusion follows by applying the theorem. -/
theorem claim_C10_witness :
    (findProject ⟨[], [⟨30, []⟩]⟩ 30 = some ⟨30, []⟩) ∧
    (Project.mk 30 []).dashboards.contains 40 = false ∧
    (∀ rs, (none : Option (List ReportInput)) = some rs →
      ∃ out, normalizeReports rs = Except.ok out) ∧
    (∃ db2 reports,
      createDashboard 30 none 40 true ⟨[], [⟨30, []⟩]⟩ =
        (Except.ok 40, db2) ∧
      db2.projects = (DB.mk [] [⟨30, []⟩]).projects ∧
      db2.dashboards = (DB.mk [] [⟨30, []⟩]).dashboards ++
        [{ did := 40, reports := reports }] ∧
      getDashboardById 40 30 db2 = Except.error accessDeniedMsg ∧
      (∀ rd, (updateDashboard 40 30 rd db2).1 = Except.error accessDeniedMsg) ∧
      (∀ rd fid, (addReportToDashboard 40 30 rd fid db2).1 =
        Except.error accessDeniedMsg) ∧
      (∀ rid, (removeReportFromDashboard 40 30 rid db2).1 =
        Except.error accessDeniedMsg)) :=
  ⟨by decide, by decide, fun rs h => Option.noConfusion h,
    claim_C10 30 none 40 ⟨[], [⟨30, []⟩]⟩ ⟨30, []⟩ (by decide) (by decide)
      (fun rs h => Option.noConfusion h)⟩

end DashboardService
